import Mathlib

/-!
Verification development for the rpi-infodisplay repository: the Electron
kiosk client (src/main.js) and the device identity, adoption and
authenticated polling protocol designed in scripts/README.md (the backend
specification). The backend itself is design documentation with embedded
JavaScript snippets (signRequest / verifyRequest); those snippets are
embedded directly, and the remaining backend operations are modelled from
the specification text.
-/

namespace Infodisplay

/-! ## Flat JSON bodies

The request bodies exchanged by the protocol (announce, heartbeat, ack) are
flat JSON objects of string and number fields. -/

/-- Left brace character. -/
def lbraceC : Char := Char.ofNat 123

/-- Right brace character. -/
def rbraceC : Char := Char.ofNat 125

/-- Double quote character. -/
def quoteC : Char := Char.ofNat 34

/-- Backslash character. -/
def backslashC : Char := Char.ofNat 92

/-- A JSON scalar value: the bodies in the backend specification are flat
objects of strings and (non-negative integer) numbers. -/
inductive JVal where
  | num (n : Nat)
  | str (s : String)
deriving DecidableEq

/-- A flat JSON object body as an ordered list of key/value pairs. -/
abbrev Body := List (String × JVal)

/-- Serialization of one scalar. -/
def stringifyVal : JVal → String
  | .num n => toString n
  | .str s => String.singleton quoteC ++ s ++ String.singleton quoteC

/-- Serialization of one object entry as key, colon, value. -/
def stringifyEntry (e : String × JVal) : String :=
  String.singleton quoteC ++ e.1 ++ String.singleton quoteC ++ ":" ++ stringifyVal e.2

/-- Modelled from the spec: JSON.stringify (no indent argument) on a flat
object, as used by signRequest and verifyRequest in scripts/README.md —
canonical output with no whitespace, keys in object order. -/
def stringifyBody (b : Body) : String :=
  String.singleton lbraceC ++ String.intercalate "," (b.map stringifyEntry)
    ++ String.singleton rbraceC

/-- JSON insignificant whitespace. -/
def isWs (c : Char) : Bool :=
  c == ' ' || c == '\t' || c == '\n' || c == '\r'

/-- Drop leading JSON whitespace. -/
def skipWs : List Char → List Char
  | [] => []
  | c :: rest => if isWs c then skipWs rest else c :: rest

/-- Consume the content of a string literal after its opening quote; stops at
the closing quote. Escape sequences are out of the modelled fragment. -/
def takeStr : List Char → Option (List Char × List Char)
  | [] => none
  | c :: rest =>
    if c = quoteC then some ([], rest)
    else if c = backslashC then none
    else
      match takeStr rest with
      | some (s, r) => some (c :: s, r)
      | none => none

/-- Consume a run of digits, accumulating the number value. -/
def takeNum (acc : Nat) : List Char → Nat × List Char
  | [] => (acc, [])
  | c :: rest =>
    if c.isDigit then takeNum (acc * 10 + (c.toNat - 48)) rest else (acc, c :: rest)

/-- Consume one scalar value (string or number). -/
def takeVal : List Char → Option (JVal × List Char)
  | [] => none
  | c :: rest =>
    if c = quoteC then
      match takeStr rest with
      | some (s, r) => some (.str (String.mk s), r)
      | none => none
    else if c.isDigit then
      let p := takeNum (c.toNat - 48) rest
      some (.num p.1, p.2)
    else none

/-- Consume one `"key" : value` entry, with optional surrounding whitespace. -/
def takeEntry (s : List Char) : Option ((String × JVal) × List Char) :=
  match skipWs s with
  | [] => none
  | c :: r1 =>
    if c = quoteC then
      match takeStr r1 with
      | some (k, r2) =>
        match skipWs r2 with
        | [] => none
        | c2 :: r3 =>
          if c2 = ':' then
            match takeVal (skipWs r3) with
            | some (v, r4) => some ((String.mk k, v), r4)
            | none => none
          else none
      | none => none
    else none

/-- Consume the remaining entries of an object after its first entry: a comma
then an entry, repeated, then the closing brace. -/
def takeEntries (fuel : Nat) (acc : List (String × JVal)) (s : List Char) :
    Option (Body × List Char) :=
  match skipWs s with
  | [] => none
  | c :: r =>
    if c = rbraceC then some (acc.reverse, r)
    else if c = ',' then
      match fuel with
      | 0 => none
      | fuel' + 1 =>
        match takeEntry r with
        | some (e, r2) => takeEntries fuel' (e :: acc) r2
        | none => none
    else none

/-- Modelled from the spec: JSON.parse restricted to the flat string/number
objects that the backend specification exchanges; returns none on malformed
input. This is the parse the HTTP layer applies to the wire body bytes before
verifyRequest re-serializes them. -/
def parseBody (w : String) : Option Body :=
  match skipWs w.data with
  | [] => none
  | c :: r =>
    if c = lbraceC then
      match skipWs r with
      | [] => none
      | c2 :: r2 =>
        if c2 = rbraceC then
          if (skipWs r2).isEmpty then some [] else none
        else
          match takeEntry r with
          | some (e, r3) =>
            match takeEntries w.length [e] r3 with
            | some (b, r4) => if (skipWs r4).isEmpty then some b else none
            | none => none
          | none => none
    else none

/-! ## Ed25519 signing and the canonical payload -/

/-- Modelled from the spec: an Ed25519 private key. The crypto primitives are
modelled symbolically: a signature records which key signed which payload and
verification succeeds exactly for the matching public key and payload, which
is the correctness/unforgeability contract of Ed25519 that the design in
scripts/README.md relies on. -/
structure PrivKey where
  seed : Nat
deriving DecidableEq

/-- Modelled from the spec: an Ed25519 public key. -/
structure PubKey where
  point : Nat
deriving DecidableEq

/-- The public key matching a private key; a keypair (sk, pk) matches exactly
when pk = pubOf sk. -/
def pubOf (k : PrivKey) : PubKey := ⟨k.seed⟩

/-- Modelled from the spec: an Ed25519 signature (symbolic). -/
structure SigValue where
  signer : PubKey
  message : String
deriving DecidableEq

/-- Symbolic Ed25519 signing. -/
def edSign (sk : PrivKey) (payload : String) : SigValue :=
  ⟨pubOf sk, payload⟩

/-- Symbolic Ed25519 verification: true exactly for the signer's public key
and the signed payload. -/
def edVerify (pk : PubKey) (payload : String) (sig : SigValue) : Bool :=
  sig.signer == pk && sig.message == payload

/-- An ISO-8601 request timestamp (the X-Timestamp header) together with its
epoch value in milliseconds, the result of new Date(iso).getTime(). -/
structure Timestamp where
  iso : String
  epochMs : Int

/-- The canonical signing payload from scripts/README.md: method, path,
timestamp and serialized body joined by newlines. -/
def buildPayload (method path timestamp bodyJson : String) : String :=
  method ++ "\n" ++ path ++ "\n" ++ timestamp ++ "\n" ++ bodyJson

/-- Embedding of signRequest (scripts/README.md, device side): sign the
canonical payload over JSON.stringify(body) with the private key. -/
def signRequest (privateKey : PrivKey) (method path : String) (ts : Timestamp)
    (body : Body) : SigValue :=
  edSign privateKey (buildPayload method path ts.iso (stringifyBody body))

/-- Embedding of verifyRequest (scripts/README.md, backend side): reject when
the timestamp is older than 5 minutes (replay window), else verify the
signature over the canonical payload rebuilt with JSON.stringify(body). -/
def verifyRequest (now : Int) (publicKey : PubKey) (method path : String)
    (ts : Timestamp) (body : Body) (sig : SigValue) : Bool :=
  if now - ts.epochMs > 5 * 60 * 1000 then false
  else edVerify publicKey (buildPayload method path ts.iso (stringifyBody body)) sig

/-- The payload the backend side actually checks for a wire body: it parses
the wire bytes and re-serializes the parsed object (JSON.stringify(body) in
verifyRequest), rather than splicing the wire bytes into the payload. -/
def verifySidePayload (method path timestamp wire : String) : Option String :=
  (parseBody wire).map (fun b => buildPayload method path timestamp (stringifyBody b))

/-- A wire body with a space between the colon and the value: it parses to the
same object as its canonical serialization, but is not byte-identical to it. -/
def wireWithSpace : String :=
  String.mk [lbraceC, quoteC, 'a', quoteC, ':', ' ', '1', rbraceC]

/-- A canonically serialized wire body, byte-identical to the
re-serialization of its parse. -/
def wireCanonical : String :=
  String.mk [lbraceC, quoteC, 'a', quoteC, ':', '1', rbraceC]

/-! ## Controller-side device registry

The backend is designed in scripts/README.md but not implemented; the
registry operations below are modelled from that specification. The
specification requires per-device (and per-public-key) mutual exclusion for
every read-modify-write operation, so each operation is modelled as one
atomic step; any interleaving of concurrent calls is a sequence of steps. -/

/-- Adoption state stored on a record; the online/offline/stale classification
is never stored, it is derived at read time (see classify). -/
inductive DStatus where
  | pending
  | adopted
deriving DecidableEq

/-- Modelled from the spec: one controller-side device record
(scripts/README.md, Device Record Schema). -/
structure DeviceRecord where
  id : Nat
  serial : String
  mac : String
  publicKey : PubKey
  config : Body
  status : DStatus
  createdAt : Nat
  adoptedAt : Option Nat
  lastSeenAt : Nat
  lastConfigChangeAt : Option Nat
  configChangedPending : Bool
deriving DecidableEq

/-- Modelled from the spec: one queued command, owned by one device. -/
structure Command where
  id : Nat
  deviceId : Nat
  action : String
  payload : Body
deriving DecidableEq

/-- Modelled from the spec: the controller state — device records, the
pending command queue (FIFO), and fresh-id counters. -/
structure Registry where
  devices : List DeviceRecord
  commands : List Command
  nextDeviceId : Nat
  nextCommandId : Nat
deriving DecidableEq

/-- The empty controller state. -/
def Registry.init : Registry := ⟨[], [], 0, 0⟩

/-- Result of announce: either a pending acknowledgement with the assigned
device id, or the adopted status with the device's configuration. -/
inductive AnnounceResult where
  | pending (deviceId : Nat)
  | adopted (deviceId : Nat) (config : Body)
deriving DecidableEq

/-- Record lookup by public key, the sole deduplication anchor. -/
def findByKey (r : Registry) (pk : PubKey) : Option DeviceRecord :=
  r.devices.find? (fun d => d.publicKey == pk)

/-- Record lookup by assigned device id. -/
def findById (r : Registry) (did : Nat) : Option DeviceRecord :=
  r.devices.find? (fun d => d.id == did)

/-- Apply an update to the record with the given id, leaving others alone. -/
def updateDevice (r : Registry) (did : Nat) (f : DeviceRecord → DeviceRecord) : Registry :=
  { r with devices := r.devices.map (fun d => if d.id = did then f d else d) }

/-- The fresh pending record announce creates for a new public key. -/
def announceRec (r : Registry) (serial mac : String) (pk : PubKey) (cfg : Body)
    (now : Nat) : DeviceRecord :=
  { id := r.nextDeviceId, serial := serial, mac := mac, publicKey := pk,
    config := cfg, status := .pending, createdAt := now, adoptedAt := none,
    lastSeenAt := now, lastConfigChangeAt := none, configChangedPending := false }

/-- Modelled from the spec: announce(serial, publicKey, systemSnapshot,
config). Looks up the existing record by public key only; when none exists it
creates a fresh pending record with a freshly generated id; when an adopted
record exists it returns the adopted status with the stored config and
refreshes lastSeenAt; a still-pending record is re-acknowledged as pending. -/
def Registry.announce (r : Registry) (serial mac : String) (pk : PubKey)
    (cfg : Body) (now : Nat) : AnnounceResult × Registry :=
  match findByKey r pk with
  | none =>
    (.pending r.nextDeviceId,
      { r with devices := r.devices ++ [announceRec r serial mac pk cfg now],
               nextDeviceId := r.nextDeviceId + 1 })
  | some d =>
    match d.status with
    | .adopted =>
      (.adopted d.id d.config, updateDevice r d.id (fun x => { x with lastSeenAt := now }))
    | .pending => (.pending d.id, r)

/-- Result of adopt. -/
inductive AdoptResult where
  | ok
  | alreadyAdopted
  | deviceNotFound
deriving DecidableEq

/-- Modelled from the spec: adopt(deviceId, config). Fails with AlreadyAdopted
when the record is not pending; on a pending record it sets the config and
adoptedAt, transitions to adopted, and marks configChanged pending for the
device's next poll. -/
def Registry.adopt (r : Registry) (did : Nat) (cfg : Body) (now : Nat) :
    AdoptResult × Registry :=
  match findById r did with
  | none => (.deviceNotFound, r)
  | some d =>
    match d.status with
    | .adopted => (.alreadyAdopted, r)
    | .pending =>
      (.ok, updateDevice r did (fun x =>
        { x with status := .adopted, config := cfg, adoptedAt := some now,
                 lastConfigChangeAt := some now, configChangedPending := true }))

/-- Result of acknowledge: always success — unknown or already-acknowledged
command ids are a silent no-op, never an error. -/
inductive AckResult where
  | ok
deriving DecidableEq

/-- Modelled from the spec: acknowledge(deviceId, commandId) removes the
command from the pending queue; acknowledging an unknown or
already-acknowledged id leaves the queue unchanged and still succeeds. -/
def Registry.acknowledge (r : Registry) (did cid : Nat) : AckResult × Registry :=
  (.ok, { r with commands := r.commands.filter (fun c => !(c.deviceId == did && c.id == cid)) })

/-- Modelled from the spec: heartbeat(deviceId, ...) — accepted only for an
existing adopted record; refreshes lastSeenAt. -/
def Registry.heartbeat (r : Registry) (did : Nat) (now : Nat) : Bool × Registry :=
  match findById r did with
  | none => (false, r)
  | some d =>
    match d.status with
    | .pending => (false, r)
    | .adopted => (true, updateDevice r did (fun x => { x with lastSeenAt := now }))

/-- Poll response: whether config changed since the last poll, the stored
config, and the still-pending commands for the device. -/
structure PollResult where
  configChanged : Bool
  config : Body
  pendingCommands : List Command
deriving DecidableEq

/-- Modelled from the spec: poll(deviceId) — accepted only for an existing
adopted record; refreshes lastSeenAt, reports and clears the configChanged
flag and returns the device's pending commands (kept until acknowledged). -/
def Registry.poll (r : Registry) (did : Nat) (now : Nat) : Option PollResult × Registry :=
  match findById r did with
  | none => (none, r)
  | some d =>
    match d.status with
    | .pending => (none, r)
    | .adopted =>
      (some ⟨d.configChangedPending, d.config, r.commands.filter (fun c => c.deviceId == did)⟩,
        updateDevice r did (fun x => { x with lastSeenAt := now, configChangedPending := false }))

/-- Modelled from the spec: enqueue(deviceId, action, payload) appends a
command with a fresh id to the queue. -/
def Registry.enqueue (r : Registry) (did : Nat) (action : String) (payload : Body) :
    Nat × Registry :=
  (r.nextCommandId,
    { r with commands := r.commands ++ [⟨r.nextCommandId, did, action, payload⟩],
             nextCommandId := r.nextCommandId + 1 })

/-- Modelled from the spec: remove/forget a device (admin DELETE or stale
cleanup) — drops the record and its queued commands. -/
def Registry.remove (r : Registry) (did : Nat) : Registry :=
  { r with devices := r.devices.filter (fun d => !(d.id == did)),
           commands := r.commands.filter (fun c => !(c.deviceId == did)) }

/-- The controller states reachable from the empty state by any sequence of
the registry operations (concurrent calls are serialized by the per-device /
per-key mutual exclusion the specification requires). -/
inductive Reachable : Registry → Prop where
  | init : Reachable Registry.init
  | announce {r : Registry} (serial mac : String) (pk : PubKey) (cfg : Body) (now : Nat)
      (h : Reachable r) : Reachable (r.announce serial mac pk cfg now).2
  | adopt {r : Registry} (did : Nat) (cfg : Body) (now : Nat)
      (h : Reachable r) : Reachable (r.adopt did cfg now).2
  | acknowledge {r : Registry} (did cid : Nat)
      (h : Reachable r) : Reachable (r.acknowledge did cid).2
  | heartbeat {r : Registry} (did : Nat) (now : Nat)
      (h : Reachable r) : Reachable (r.heartbeat did now).2
  | poll {r : Registry} (did : Nat) (now : Nat)
      (h : Reachable r) : Reachable (r.poll did now).2
  | enqueue {r : Registry} (did : Nat) (action : String) (payload : Body)
      (h : Reachable r) : Reachable (r.enqueue did action payload).2
  | remove {r : Registry} (did : Nat)
      (h : Reachable r) : Reachable (r.remove did)

/-- The registry invariant: device ids stay below the fresh-id counter and
both the ids and the public keys of the records are pairwise distinct. -/
def RegInv (r : Registry) : Prop :=
  (∀ d ∈ r.devices, d.id < r.nextDeviceId) ∧
  (r.devices.map (fun d => d.id)).Nodup ∧
  (r.devices.map (fun d => d.publicKey)).Nodup

inductive Liveness where
  | online
  | offline
deriving DecidableEq

structure StatusView where
  live : Liveness
  stale : Bool
deriving DecidableEq

def classify (now lastSeenAt createdAt : Nat) (st : DStatus) : StatusView :=
  { live := if now - lastSeenAt < 180000 then .online else .offline,
    stale :=
      match st with
      | .adopted => decide (604800000 <= now - lastSeenAt)
      | .pending => decide (604800000 <= now - createdAt) }

/-- The value a key holds in a JavaScript object represented as an ordered
key/value list (first occurrence wins; JS objects have unique keys). -/
def getVal {V : Type} : List (String × V) → String → Option V
  | [], _ => none
  | e :: rest, k => if e.1 = k then some e.2 else getVal rest k

/-- One JS object assignment config[k] = v: updates the key in place when
present, else appends it — exactly what the saveProps assignments in
src/main.js do to the shared config object. -/
def setKey {V : Type} : List (String × V) → String → V → List (String × V)
  | [], k, v => [(k, v)]
  | e :: rest, k, v => if e.1 = k then (k, v) :: rest else e :: setKey rest k v

/-- The data.payload.props argument of the saveProps action. -/
structure PropsPayload (V : Type) where
  name : V
  location : V
  url : V
  zoomFactorRaw : String

/-- Embedding of actions.saveProps (src/main.js): the four assignments
config.name, config.location, config.url and
config.zoomFactor = parseFloat(props.zoomFactor), after which the whole
config object is persisted with JSON.stringify(config, null, 2). Field
values are abstract in V; parseFloat is the parameter pf. The result is the
full key/value map the rewrite of config.json persists. -/
def saveProps {V : Type} (pf : String → V) (config : List (String × V))
    (props : PropsPayload V) : List (String × V) :=
  setKey (setKey (setKey (setKey config "name" props.name) "location" props.location)
    "url" props.url) "zoomFactor" (pf props.zoomFactorRaw)

/-- The display-relevant part of config.json as read by src/main.js; a
missing key is none. zoomFactor is modelled as a rational number. -/
structure FileConfig where
  url : Option String
  fullscreen : Option Bool
  frame : Option Bool
  zoomFactor : Option Rat

/-- The window parameters createMainWindow derives from the config. -/
structure MainWindowView where
  url : String
  fullscreen : Bool
  frame : Bool
  zoomFactor : Rat

/-- Embedding of createMainWindow (src/main.js): fullscreen
config.fullscreen ?? true, frame config.frame ?? false,
loadURL(config.url ?? 'https://edugo.be') and
setZoomFactor(config.zoomFactor ?? 1); ?? on a missing key is Option.getD. -/
def createMainWindow (c : FileConfig) : MainWindowView :=
  { url := c.url.getD "https://edugo.be",
    fullscreen := c.fullscreen.getD true,
    frame := c.frame.getD false,
    zoomFactor := c.zoomFactor.getD 1 }

/-! ## Theorems -/

/-- Appending the same prefix is left-cancellative on strings. -/
theorem string_append_left_cancel (s x y : String) (h : s ++ x = s ++ y) : x = y := by
  have h2 := congrArg String.data h
  simp only [String.data_append] at h2
  exact String.ext (List.append_cancel_left h2)

/-- The canonical payload determines its body serialization: two payloads with
the same method, path and timestamp agree only when their body parts agree. -/
theorem buildPayload_right_inj (method path timestamp x y : String)
    (h : buildPayload method path timestamp x = buildPayload method path timestamp y) :
    x = y := by
  have h2 := congrArg String.data h
  simp only [buildPayload, String.data_append, List.append_assoc] at h2
  exact String.ext
    (List.append_cancel_left (List.append_cancel_left (List.append_cancel_left
      (List.append_cancel_left (List.append_cancel_left (List.append_cancel_left h2))))))

/-- C1: for every method, path, timestamp within the 5-minute window of the
verification time, and body, verifying a payload signed with signRequest
succeeds exactly when the public key matches the signing private key: true
for the matching Ed25519 pair, false for any non-matching keypair. -/
theorem c1_verify_of_sign_matching_key (now : Int) (sk : PrivKey) (pk : PubKey)
    (method path : String) (ts : Timestamp) (body : Body)
    (hlo : 0 ≤ now - ts.epochMs) (hhi : now - ts.epochMs ≤ 5 * 60 * 1000) :
    verifyRequest now pk method path ts body (signRequest sk method path ts body) = true
      ↔ pk = pubOf sk := by
  have hc : ¬(now - ts.epochMs > 5 * 60 * 1000) := by omega
  unfold verifyRequest signRequest
  rw [if_neg hc]
  simp only [edVerify, edSign, beq_self_eq_true, Bool.and_true, beq_iff_eq]
  exact eq_comm

/-- Witness for C1 at a concrete request, with the matching keypair. -/
theorem c1_witness :
    0 ≤ (1000000 : Int) - 800000 ∧ (1000000 : Int) - 800000 ≤ 5 * 60 * 1000 ∧
      (verifyRequest 1000000 ⟨7⟩ "GET" "/api/v1/devices/d1/poll"
          ⟨"2026-01-13T12:00:00.000Z", 800000⟩ [("uptime", .num 86400)]
          (signRequest ⟨7⟩ "GET" "/api/v1/devices/d1/poll"
            ⟨"2026-01-13T12:00:00.000Z", 800000⟩ [("uptime", .num 86400)]) = true
        ↔ (⟨7⟩ : PubKey) = pubOf ⟨7⟩) :=
  ⟨by decide, by decide,
    c1_verify_of_sign_matching_key 1000000 ⟨7⟩ ⟨7⟩ "GET" "/api/v1/devices/d1/poll"
      ⟨"2026-01-13T12:00:00.000Z", 800000⟩ [("uptime", .num 86400)]
      (by decide) (by decide)⟩

/-- C2: for every signed request whose timestamp is older than 5 minutes at
verification time, verification returns false for every signature value,
even a cryptographically valid one; the window is a hard rejection. -/
theorem c2_replay_window_rejects_old_timestamp (now : Int) (pk : PubKey)
    (method path : String) (ts : Timestamp) (body : Body) (sig : SigValue)
    (hold : 5 * 60 * 1000 < now - ts.epochMs) :
    verifyRequest now pk method path ts body sig = false := by
  unfold verifyRequest
  rw [if_pos hold]

/-- Witness for C2 at a concrete request whose signature is valid for the
matching keypair but whose timestamp is stale. -/
theorem c2_witness :
    5 * 60 * 1000 < (10000000 : Int) - 0 ∧
      verifyRequest 10000000 ⟨7⟩ "GET" "/api/v1/devices/d1/poll"
        ⟨"2026-01-13T09:00:00.000Z", 0⟩ []
        (signRequest ⟨7⟩ "GET" "/api/v1/devices/d1/poll"
          ⟨"2026-01-13T09:00:00.000Z", 0⟩ []) = false :=
  ⟨by decide,
    c2_replay_window_rejects_old_timestamp 10000000 ⟨7⟩ "GET" "/api/v1/devices/d1/poll"
      ⟨"2026-01-13T09:00:00.000Z", 0⟩ []
      (signRequest ⟨7⟩ "GET" "/api/v1/devices/d1/poll"
        ⟨"2026-01-13T09:00:00.000Z", 0⟩ []) (by decide)⟩

/-- C3 counterexample: for this wire body the verify side does not build its
payload from the wire bytes — parsing and re-serializing yields a different
byte sequence, so the checked payload differs from the wire-byte payload. -/
theorem c3_counterexample :
    verifySidePayload "POST" "/api/v1/devices/d1/heartbeat" "2026-01-13T12:00:00.000Z"
        wireWithSpace
      ≠ some (buildPayload "POST" "/api/v1/devices/d1/heartbeat" "2026-01-13T12:00:00.000Z"
        wireWithSpace) := by
  decide

/-- C3 (amended): the verify side rebuilds the payload from
JSON.stringify of the parsed wire body, so it equals the payload over the
wire bytes exactly when the wire bytes are re-serialization-stable, i.e.
equal to JSON.stringify of their parse; any whitespace or key-order
divergence breaks the agreement. -/
theorem c3_verify_payload_reserialization (method path timestamp wire : String)
    (b : Body) (h : parseBody wire = some b) :
    verifySidePayload method path timestamp wire
      = some (buildPayload method path timestamp wire) ↔ stringifyBody b = wire := by
  unfold verifySidePayload
  rw [h]
  simp only [Option.map_some', Option.some.injEq]
  constructor
  · exact buildPayload_right_inj method path timestamp _ _
  · intro he; rw [he]

/-- Witness for the amended C3 at a concrete canonical wire body. -/
theorem c3_witness :
    parseBody wireCanonical = some [("a", .num 1)] ∧
      (verifySidePayload "POST" "/api/v1/devices/d1/heartbeat" "2026-01-13T12:00:00.000Z"
          wireCanonical
        = some (buildPayload "POST" "/api/v1/devices/d1/heartbeat"
          "2026-01-13T12:00:00.000Z" wireCanonical)
        ↔ stringifyBody [("a", .num 1)] = wireCanonical) :=
  ⟨by decide,
    c3_verify_payload_reserialization "POST" "/api/v1/devices/d1/heartbeat"
      "2026-01-13T12:00:00.000Z" wireCanonical [("a", .num 1)] (by decide)⟩

/-- announce for an unknown public key: create a fresh pending record. -/
theorem announce_of_none {r : Registry} {pk : PubKey} (serial mac : String) (cfg : Body)
    (now : Nat) (hfk : findByKey r pk = none) :
    r.announce serial mac pk cfg now
      = (.pending r.nextDeviceId,
          { r with devices := r.devices ++ [announceRec r serial mac pk cfg now],
                   nextDeviceId := r.nextDeviceId + 1 }) := by
  unfold Registry.announce
  rw [hfk]

/-- announce for an adopted record: adopted response and lastSeenAt refresh. -/
theorem announce_of_adopted {r : Registry} {pk : PubKey} {d : DeviceRecord}
    (serial mac : String) (cfg : Body) (now : Nat)
    (hfk : findByKey r pk = some d) (hst : d.status = .adopted) :
    r.announce serial mac pk cfg now
      = (.adopted d.id d.config,
          updateDevice r d.id (fun x => { x with lastSeenAt := now })) := by
  unfold Registry.announce
  rw [hfk]
  dsimp only
  rw [hst]

/-- announce for a still-pending record: pending response, no new record. -/
theorem announce_of_pending {r : Registry} {pk : PubKey} {d : DeviceRecord}
    (serial mac : String) (cfg : Body) (now : Nat)
    (hfk : findByKey r pk = some d) (hst : d.status = .pending) :
    r.announce serial mac pk cfg now = (.pending d.id, r) := by
  unfold Registry.announce
  rw [hfk]
  dsimp only
  rw [hst]

/-- adopt for an unknown id: DeviceNotFound, state unchanged. -/
theorem adopt_of_none {r : Registry} {did : Nat} (cfg : Body) (now : Nat)
    (hfd : findById r did = none) :
    r.adopt did cfg now = (.deviceNotFound, r) := by
  unfold Registry.adopt
  rw [hfd]

/-- adopt for a pending record: success and the adopting update. -/
theorem adopt_of_pending {r : Registry} {did : Nat} {d : DeviceRecord} (cfg : Body)
    (now : Nat) (hfd : findById r did = some d) (hst : d.status = .pending) :
    r.adopt did cfg now
      = (.ok, updateDevice r did (fun x =>
          { x with status := .adopted, config := cfg, adoptedAt := some now,
                   lastConfigChangeAt := some now, configChangedPending := true })) := by
  unfold Registry.adopt
  rw [hfd]
  dsimp only
  rw [hst]

/-- adopt for an already-adopted record: AlreadyAdopted, state unchanged. -/
theorem adopt_of_adopted {r : Registry} {did : Nat} {d : DeviceRecord} (cfg : Body)
    (now : Nat) (hfd : findById r did = some d) (hst : d.status = .adopted) :
    r.adopt did cfg now = (.alreadyAdopted, r) := by
  unfold Registry.adopt
  rw [hfd]
  dsimp only
  rw [hst]

/-- heartbeat for an unknown id: rejected, state unchanged. -/
theorem heartbeat_of_none {r : Registry} {did : Nat} (now : Nat)
    (hfd : findById r did = none) :
    r.heartbeat did now = (false, r) := by
  unfold Registry.heartbeat
  rw [hfd]

/-- heartbeat for a not-yet-adopted record: rejected, state unchanged. -/
theorem heartbeat_of_pending {r : Registry} {did : Nat} {d : DeviceRecord} (now : Nat)
    (hfd : findById r did = some d) (hst : d.status = .pending) :
    r.heartbeat did now = (false, r) := by
  unfold Registry.heartbeat
  rw [hfd]
  dsimp only
  rw [hst]

/-- heartbeat for an adopted record: accepted and lastSeenAt refreshed. -/
theorem heartbeat_of_adopted {r : Registry} {did : Nat} {d : DeviceRecord}
    (now : Nat) (hfd : findById r did = some d) (hst : d.status = .adopted) :
    r.heartbeat did now
      = (true, updateDevice r did (fun x => { x with lastSeenAt := now })) := by
  unfold Registry.heartbeat
  rw [hfd]
  dsimp only
  rw [hst]

/-- poll for an unknown id: rejected, state unchanged. -/
theorem poll_of_none {r : Registry} {did : Nat} (now : Nat)
    (hfd : findById r did = none) :
    r.poll did now = (none, r) := by
  unfold Registry.poll
  rw [hfd]

/-- poll for a not-yet-adopted record: rejected, state unchanged. -/
theorem poll_of_pending {r : Registry} {did : Nat} {d : DeviceRecord} (now : Nat)
    (hfd : findById r did = some d) (hst : d.status = .pending) :
    r.poll did now = (none, r) := by
  unfold Registry.poll
  rw [hfd]
  dsimp only
  rw [hst]

/-- poll for an adopted record: response with the configChanged flag and
pending commands; lastSeenAt refreshed and the flag cleared. -/
theorem poll_of_adopted {r : Registry} {did : Nat} {d : DeviceRecord} (now : Nat)
    (hfd : findById r did = some d) (hst : d.status = .adopted) :
    r.poll did now
      = (some ⟨d.configChangedPending, d.config,
            r.commands.filter (fun c => c.deviceId == did)⟩,
          updateDevice r did (fun x =>
            { x with lastSeenAt := now, configChangedPending := false })) := by
  unfold Registry.poll
  rw [hfd]
  dsimp only
  rw [hst]

/-! ## Registry invariants over reachable states -/
theorem proj_map_update {β : Type} (l : List DeviceRecord) (did : Nat)
    (f : DeviceRecord → DeviceRecord) (g : DeviceRecord → β)
    (hg : ∀ d, g (f d) = g d) :
    (l.map (fun d => if d.id = did then f d else d)).map g = l.map g := by
  rw [List.map_map]
  apply List.map_congr_left
  intro a _
  by_cases h : a.id = did <;> simp [h, hg]

theorem find?_id_map_update (l : List DeviceRecord) (did : Nat)
    (f : DeviceRecord → DeviceRecord) (hid : ∀ d, (f d).id = d.id) :
    (l.map (fun d => if d.id = did then f d else d)).find? (fun d => d.id == did)
      = (l.find? (fun d => d.id == did)).map f := by
  induction l with
  | nil => rfl
  | cons a tl ih =>
    by_cases h : a.id = did
    · simp only [List.map_cons, if_pos h]
      rw [List.find?_cons_of_pos _ (by simp [hid, h]),
          List.find?_cons_of_pos _ (by simp [h]), Option.map_some']
    · simp only [List.map_cons, if_neg h]
      rw [List.find?_cons_of_neg _ (by simp [h]), List.find?_cons_of_neg _ (by simp [h]), ih]

theorem find?_id_of_mem_nodup (l : List DeviceRecord) (d : DeviceRecord) (hmem : d ∈ l)
    (hnd : (l.map (fun x => x.id)).Nodup) :
    l.find? (fun x => x.id == d.id) = some d := by
  induction l with
  | nil => cases hmem
  | cons a tl ih =>
    simp only [List.map_cons, List.nodup_cons] at hnd
    obtain ⟨hnotin, hnd'⟩ := hnd
    rcases List.mem_cons.mp hmem with rfl | hmem'
    · rw [List.find?_cons_of_pos _ (by simp)]
    · by_cases h : a.id = d.id
      · exact absurd (h ▸ List.mem_map_of_mem (fun x => x.id) hmem') hnotin
      · rw [List.find?_cons_of_neg _ (by simp [h])]
        exact ih hmem' hnd'

theorem not_mem_keys_of_findByKey_none {r : Registry} {pk : PubKey}
    (hfk : findByKey r pk = none) :
    pk ∉ r.devices.map (fun d => d.publicKey) := by
  unfold findByKey at hfk
  rw [List.find?_eq_none] at hfk
  intro hmem
  rcases List.mem_map.mp hmem with ⟨d, hd, hdk⟩
  exact hfk d hd (by simp [hdk])

theorem filter_idem {α : Type} (p : α → Bool) (l : List α) :
    (l.filter p).filter p = l.filter p := by
  induction l with
  | nil => rfl
  | cons a tl ih =>
    by_cases h : p a
    · simp [List.filter_cons, h, ih]
    · simp [List.filter_cons, h, ih]

theorem regInv_updateDevice (r : Registry) (did : Nat) (f : DeviceRecord → DeviceRecord)
    (hid : ∀ d, (f d).id = d.id) (hkey : ∀ d, (f d).publicKey = d.publicKey)
    (inv : RegInv r) : RegInv (updateDevice r did f) := by
  obtain ⟨hlt, hids, hpks⟩ := inv
  refine ⟨?_, ?_, ?_⟩
  · intro d hd
    simp only [updateDevice] at hd ⊢
    rcases List.mem_map.mp hd with ⟨a, ha, rfl⟩
    by_cases hc : a.id = did
    · rw [if_pos hc, hid]; exact hlt a ha
    · rw [if_neg hc]; exact hlt a ha
  · unfold updateDevice
    dsimp only
    rw [proj_map_update _ _ _ _ hid]
    exact hids
  · unfold updateDevice
    dsimp only
    rw [proj_map_update _ _ _ _ hkey]
    exact hpks

theorem reachable_regInv (r : Registry) (h : Reachable r) : RegInv r := by
  induction h with
  | init =>
    exact ⟨(by intro d hd; cases hd), (by simp [Registry.init]), (by simp [Registry.init])⟩
  | @announce r' serial mac pk cfg now h ih =>
    cases hfk : findByKey r' pk with
    | none =>
      rw [announce_of_none serial mac cfg now hfk]
      obtain ⟨hlt, hids, hpks⟩ := ih
      refine ⟨?_, ?_, ?_⟩
      · intro d hd
        simp only [List.mem_append, List.mem_singleton] at hd
        rcases hd with h1 | h1
        · exact Nat.lt_succ_of_lt (hlt d h1)
        · subst h1; exact Nat.lt_succ_self _
      · show ((r'.devices ++ [announceRec r' serial mac pk cfg now]).map (fun d => d.id)).Nodup
        rw [List.map_append, List.nodup_append]
        refine ⟨hids, by simp, ?_⟩
        intro x hx hx2
        simp only [List.map_cons, List.map_nil, List.mem_singleton, announceRec] at hx2
        rcases List.mem_map.mp hx with ⟨d, hd, rfl⟩
        have := hlt d hd
        omega
      · show ((r'.devices ++ [announceRec r' serial mac pk cfg now]).map (fun d => d.publicKey)).Nodup
        rw [List.map_append, List.nodup_append]
        refine ⟨hpks, by simp, ?_⟩
        intro x hx hx2
        simp only [List.map_cons, List.map_nil, List.mem_singleton, announceRec] at hx2
        subst hx2
        exact not_mem_keys_of_findByKey_none hfk hx
    | some d =>
      cases hst : d.status with
      | pending =>
        rw [announce_of_pending serial mac cfg now hfk hst]
        exact ih
      | adopted =>
        rw [announce_of_adopted serial mac cfg now hfk hst]
        exact regInv_updateDevice r' d.id (fun x => { x with lastSeenAt := now })
          (fun x => rfl) (fun x => rfl) ih
  | @adopt r' did cfg now h ih =>
    cases hfd : findById r' did with
    | none => rw [adopt_of_none cfg now hfd]; exact ih
    | some d =>
      cases hst : d.status with
      | adopted => rw [adopt_of_adopted cfg now hfd hst]; exact ih
      | pending =>
        rw [adopt_of_pending cfg now hfd hst]
        exact regInv_updateDevice r' did (fun x =>
          { x with status := .adopted, config := cfg, adoptedAt := some now,
                   lastConfigChangeAt := some now, configChangedPending := true })
          (fun x => rfl) (fun x => rfl) ih
  | @acknowledge r' did cid h ih => exact ih
  | @heartbeat r' did now h ih =>
    cases hfd : findById r' did with
    | none => rw [heartbeat_of_none now hfd]; exact ih
    | some d =>
      cases hst : d.status with
      | pending => rw [heartbeat_of_pending now hfd hst]; exact ih
      | adopted =>
        rw [heartbeat_of_adopted now hfd hst]
        exact regInv_updateDevice r' did (fun x => { x with lastSeenAt := now })
          (fun x => rfl) (fun x => rfl) ih
  | @poll r' did now h ih =>
    cases hfd : findById r' did with
    | none => rw [poll_of_none now hfd]; exact ih
    | some d =>
      cases hst : d.status with
      | pending => rw [poll_of_pending now hfd hst]; exact ih
      | adopted =>
        rw [poll_of_adopted now hfd hst]
        exact regInv_updateDevice r' did (fun x =>
          { x with lastSeenAt := now, configChangedPending := false })
          (fun x => rfl) (fun x => rfl) ih
  | @enqueue r' did action payload h ih => exact ih
  | @remove r' did h ih =>
    obtain ⟨hlt, hids, hpks⟩ := ih
    refine ⟨?_, ?_, ?_⟩
    · intro d hd
      simp only [Registry.remove] at hd ⊢
      exact hlt d (List.mem_of_mem_filter hd)
    · show ((r'.devices.filter _).map (fun d => d.id)).Nodup
      exact hids.sublist ((List.filter_sublist _).map _)
    · show ((r'.devices.filter _).map (fun d => d.publicKey)).Nodup
      exact hpks.sublist ((List.filter_sublist _).map _)




/-- C4: announce looks up the existing record by public key only (never by
serial or mac — the result is identical for any serial/mac): with no record
for the key it creates a new pending record under a freshly generated id
(distinct from every existing id) and returns a pending status with that id;
with a matching adopted record it returns the adopted status, the device id
and the stored config, and refreshes that record's lastSeenAt. -/
theorem c4_announce_deduplicates_by_public_key (r : Registry) (serial mac : String)
    (pk : PubKey) (cfg : Body) (now : Nat) (hreach : Reachable r) :
    (findByKey r pk = none →
        (r.announce serial mac pk cfg now).1 = .pending r.nextDeviceId ∧
        (∀ d ∈ r.devices, d.id ≠ r.nextDeviceId) ∧
        findByKey (r.announce serial mac pk cfg now).2 pk
          = some (announceRec r serial mac pk cfg now) ∧
        (announceRec r serial mac pk cfg now).status = .pending ∧
        (announceRec r serial mac pk cfg now).id = r.nextDeviceId) ∧
    (∀ d, findByKey r pk = some d → d.status = .adopted →
        (r.announce serial mac pk cfg now).1 = .adopted d.id d.config ∧
        findById (r.announce serial mac pk cfg now).2 d.id
          = some { d with lastSeenAt := now }) ∧
    (∀ serial2 mac2, (r.announce serial mac pk cfg now).1
        = (r.announce serial2 mac2 pk cfg now).1) := by
  obtain ⟨hlt, hids, hpks⟩ := reachable_regInv r hreach
  refine ⟨?_, ?_, ?_⟩
  · intro hfk
    rw [announce_of_none serial mac cfg now hfk]
    refine ⟨rfl, ?_, ?_, rfl, rfl⟩
    · intro d hd
      exact Nat.ne_of_lt (hlt d hd)
    · unfold findByKey
      dsimp only
      rw [List.find?_append]
      unfold findByKey at hfk
      rw [hfk]
      simp [announceRec]
  · intro d hfk hst
    rw [announce_of_adopted serial mac cfg now hfk hst]
    refine ⟨rfl, ?_⟩
    unfold findByKey at hfk
    have hmem := List.mem_of_find?_eq_some hfk
    have hself : r.devices.find? (fun x => x.id == d.id) = some d :=
      find?_id_of_mem_nodup r.devices d hmem hids
    unfold findById updateDevice
    dsimp only
    rw [find?_id_map_update r.devices d.id (fun x => { x with lastSeenAt := now })
          (fun x => rfl),
        hself, Option.map_some']
  · intro serial2 mac2
    cases hfk : findByKey r pk with
    | none =>
      rw [announce_of_none serial mac cfg now hfk,
          announce_of_none serial2 mac2 cfg now hfk]
    | some d =>
      cases hst : d.status with
      | pending =>
        rw [announce_of_pending serial mac cfg now hfk hst,
            announce_of_pending serial2 mac2 cfg now hfk hst]
      | adopted =>
        rw [announce_of_adopted serial mac cfg now hfk hst,
            announce_of_adopted serial2 mac2 cfg now hfk hst]

/-- Witness for C4: a first announce on the empty registry is pending. -/
theorem c4_witness :
    (Registry.init.announce "serial1" "aa:bb" ⟨5⟩ [] 100).1
      = AnnounceResult.pending Registry.init.nextDeviceId :=
  ((c4_announce_deduplicates_by_public_key Registry.init "serial1" "aa:bb" ⟨5⟩ [] 100
    Reachable.init).1 (by decide)).1

/-- A list of records with pairwise-distinct public keys holds at most one
record for any given key. -/
theorem nodup_keys_filter_len (l : List DeviceRecord) (pk : PubKey)
    (h : (l.map (fun d => d.publicKey)).Nodup) :
    (l.filter (fun d => d.publicKey == pk)).length ≤ 1 := by
  induction l with
  | nil => simp
  | cons a tl ih =>
    simp only [List.map_cons, List.nodup_cons] at h
    obtain ⟨hnotin, hnd⟩ := h
    by_cases hpk : a.publicKey = pk
    · have hnil : tl.filter (fun d => d.publicKey == pk) = [] := by
        rw [List.filter_eq_nil_iff]
        intro d hd hcon
        apply hnotin
        have h1 : d.publicKey = pk := by simpa using hcon
        rw [hpk, ← h1]
        exact List.mem_map_of_mem _ hd
      simp [List.filter_cons, hpk, hnil]
    · have hfalse : (a.publicKey == pk) = false := by simp [hpk]
      simp only [List.filter_cons, hfalse, Bool.false_eq_true, if_false]
      exact ih hnd


/-- C5: in every reachable registry state at most one device record exists
per public key, so two announce calls with the same new public key
(serialized by the required per-key mutual exclusion) yield exactly one
pending record, never two. -/
theorem c5_at_most_one_record_per_key (r : Registry) (hreach : Reachable r) (pk : PubKey) :
    (r.devices.filter (fun d => d.publicKey == pk)).length ≤ 1 :=
  nodup_keys_filter_len r.devices pk (reachable_regInv r hreach).2.2

/-- Witness for C5 after two announces with the same new public key. -/
theorem c5_witness :
    ((((Registry.init.announce "serial1" "aa" ⟨5⟩ [] 100).2.announce
        "serial2" "bb" ⟨5⟩ [] 200).2).devices.filter
      (fun d => d.publicKey == ⟨5⟩)).length ≤ 1 :=
  c5_at_most_one_record_per_key _
    (Reachable.announce "serial2" "bb" ⟨5⟩ [] 200
      (Reachable.announce "serial1" "aa" ⟨5⟩ [] 100 Reachable.init)) ⟨5⟩

/-- C6: adopt fails with AlreadyAdopted exactly when the record is not
pending; on a pending record it succeeds, sets the config and adoptedAt,
transitions the record to adopted and marks configChanged pending for the
device's next poll. -/
theorem c6_adopt_exactly_on_pending (r : Registry) (did : Nat) (cfg : Body) (now : Nat)
    (d : DeviceRecord) (hfd : findById r did = some d) :
    ((r.adopt did cfg now).1 = .alreadyAdopted ↔ d.status ≠ .pending) ∧
    (d.status = .pending →
      (r.adopt did cfg now).1 = .ok ∧
      findById (r.adopt did cfg now).2 did
        = some ({ d with
            status := .adopted, config := cfg, adoptedAt := some now,
            lastConfigChangeAt := some now, configChangedPending := true })) := by
  constructor
  · cases hst : d.status with
    | pending =>
      rw [adopt_of_pending cfg now hfd hst]
      simp
    | adopted =>
      rw [adopt_of_adopted cfg now hfd hst]
      simp
  · intro hst
    rw [adopt_of_pending cfg now hfd hst]
    refine ⟨rfl, ?_⟩
    unfold findById updateDevice
    dsimp only
    unfold findById at hfd
    rw [find?_id_map_update r.devices did (fun x =>
          { x with status := .adopted, config := cfg, adoptedAt := some now,
                   lastConfigChangeAt := some now, configChangedPending := true })
          (fun x => rfl),
        hfd, Option.map_some']

/-- C7: acknowledge always succeeds; it removes the acknowledged command
from the pending queue, acknowledging an unknown or already-acknowledged id
leaves the state unchanged, and acknowledge composed with itself equals a
single acknowledge. -/
theorem c7_acknowledge_idempotent (r : Registry) (did cid : Nat) :
    (r.acknowledge did cid).1 = .ok ∧
    ((r.acknowledge did cid).2.acknowledge did cid = r.acknowledge did cid) ∧
    (∀ c ∈ (r.acknowledge did cid).2.commands, ¬(c.deviceId = did ∧ c.id = cid)) ∧
    ((∀ c ∈ r.commands, ¬(c.deviceId = did ∧ c.id = cid)) → (r.acknowledge did cid).2 = r) := by
  obtain ⟨devs, cmds, n1, n2⟩ := r
  refine ⟨rfl, ?_, ?_, ?_⟩
  · unfold Registry.acknowledge
    dsimp only
    rw [filter_idem]
  · intro c hc
    unfold Registry.acknowledge at hc
    dsimp only at hc
    rw [List.mem_filter] at hc
    intro hcon
    have h2 := hc.2
    rw [hcon.1, hcon.2] at h2
    simp at h2
  · intro h
    have hall : ∀ c ∈ cmds, (!(c.deviceId == did && c.id == cid)) = true := by
      intro c hc
      by_cases h1 : c.deviceId = did
      · by_cases h2 : c.id = cid
        · exact absurd ⟨h1, h2⟩ (h c hc)
        · simp [h2]
      · simp [h1]
    unfold Registry.acknowledge
    dsimp only
    rw [List.filter_eq_self.mpr hall]

/-- C8: the online/offline/stale classification is a pure function of
(now, lastSeenAt, createdAt, adoption state) computed at read time — no
classification field exists on the stored record. An adopted device is
online iff now - lastSeenAt < 3 minutes and offline iff >= 3 minutes; it is
stale iff offline for >= 7 days (adopted) or created >= 7 days ago while
still pending; and an accepted heartbeat, as well as an accepted poll, resets
lastSeenAt to now, after which the device classifies online until the
threshold passes again. -/
theorem c8_derived_classification (now lastSeenAt createdAt : Nat) :
    ((classify now lastSeenAt createdAt .adopted).live = .online
      ↔ now - lastSeenAt < 180000) ∧
    ((classify now lastSeenAt createdAt .adopted).live = .offline
      ↔ 180000 ≤ now - lastSeenAt) ∧
    ((classify now lastSeenAt createdAt .adopted).stale = true
      ↔ 604800000 ≤ now - lastSeenAt) ∧
    ((classify now lastSeenAt createdAt .pending).stale = true
      ↔ 604800000 ≤ now - createdAt) ∧
    (∀ (r : Registry) (did : Nat) (d : DeviceRecord),
      findById r did = some d → d.status = .adopted →
        (r.heartbeat did now).1 = true ∧
        findById (r.heartbeat did now).2 did = some { d with lastSeenAt := now } ∧
        (∀ later : Nat, later - now < 180000 →
          (classify later now d.createdAt .adopted).live = .online)) ∧
    (∀ (r : Registry) (did : Nat) (d : DeviceRecord),
      findById r did = some d → d.status = .adopted →
        (r.poll did now).1.isSome = true ∧
        findById (r.poll did now).2 did
          = some ({ d with lastSeenAt := now, configChangedPending := false }) ∧
        (∀ later : Nat, later - now < 180000 →
          (classify later now d.createdAt .adopted).live = .online)) := by
  refine ⟨?_, ?_, ?_, ?_, ?_, ?_⟩
  · by_cases h : now - lastSeenAt < 180000 <;> simp [classify, h]
  · by_cases h : now - lastSeenAt < 180000
    · simp [classify, h]
    · simp [classify, h]
      omega
  · simp [classify]
  · simp [classify]
  · intro r did d hfd hst
    rw [heartbeat_of_adopted now hfd hst]
    refine ⟨rfl, ?_, ?_⟩
    · unfold findById updateDevice
      dsimp only
      unfold findById at hfd
      rw [find?_id_map_update r.devices did (fun x => { x with lastSeenAt := now })
            (fun x => rfl),
          hfd, Option.map_some']
    · intro later hlater
      simp [classify, hlater]
  · intro r did d hfd hst
    rw [poll_of_adopted now hfd hst]
    refine ⟨rfl, ?_, ?_⟩
    · unfold findById updateDevice
      dsimp only
      unfold findById at hfd
      rw [find?_id_map_update r.devices did (fun x =>
            { x with lastSeenAt := now, configChangedPending := false })
            (fun x => rfl),
          hfd, Option.map_some']
    · intro later hlater
      simp [classify, hlater]


/-- Witness for C6: adopting the pending record created by an announce. -/
theorem c6_witness :
    ((Registry.init.announce "serial1" "aa" ⟨5⟩ [] 100).2.adopt 0
        [("name", .str "lobby-1")] 200).1 = AdoptResult.ok ∧
    findById ((Registry.init.announce "serial1" "aa" ⟨5⟩ [] 100).2.adopt 0
        [("name", .str "lobby-1")] 200).2 0
      = some ({ announceRec Registry.init "serial1" "aa" ⟨5⟩ [] 100 with
          status := .adopted, config := [("name", .str "lobby-1")],
          adoptedAt := some 200, lastConfigChangeAt := some 200,
          configChangedPending := true }) :=
  (c6_adopt_exactly_on_pending (Registry.init.announce "serial1" "aa" ⟨5⟩ [] 100).2 0
    [("name", .str "lobby-1")] 200
    (announceRec Registry.init "serial1" "aa" ⟨5⟩ [] 100) (by decide)).2 rfl

/-- Witness for C7: acknowledging an unknown command id is a no-op. -/
theorem c7_witness :
    ((⟨[], [⟨3, 1, "refresh", []⟩], 0, 4⟩ : Registry).acknowledge 9 9).2
      = (⟨[], [⟨3, 1, "refresh", []⟩], 0, 4⟩ : Registry) :=
  (c7_acknowledge_idempotent ⟨[], [⟨3, 1, "refresh", []⟩], 0, 4⟩ 9 9).2.2.2 (by decide)

/-- Witness for C8: a heartbeat, and likewise a poll, refreshes lastSeenAt
on the stored record. -/
theorem c8_witness :
    (findById
        ((⟨[⟨0, "s1", "m1", ⟨5⟩, [], .adopted, 10, some 20, 30, some 20, false⟩],
            [], 1, 0⟩ : Registry).heartbeat 0 500).2 0
      = some ({ (⟨0, "s1", "m1", ⟨5⟩, [], .adopted, 10, some 20, 30, some 20,
          false⟩ : DeviceRecord) with lastSeenAt := 500 })) ∧
    (findById
        ((⟨[⟨0, "s1", "m1", ⟨5⟩, [], .adopted, 10, some 20, 30, some 20, false⟩],
            [], 1, 0⟩ : Registry).poll 0 500).2 0
      = some ({ (⟨0, "s1", "m1", ⟨5⟩, [], .adopted, 10, some 20, 30, some 20,
          false⟩ : DeviceRecord) with lastSeenAt := 500, configChangedPending := false })) :=
  ⟨((c8_derived_classification 500 0 0).2.2.2.2.1
    ⟨[⟨0, "s1", "m1", ⟨5⟩, [], .adopted, 10, some 20, 30, some 20, false⟩], [], 1, 0⟩ 0
    ⟨0, "s1", "m1", ⟨5⟩, [], .adopted, 10, some 20, 30, some 20, false⟩
    (by decide) rfl).2.1,
   ((c8_derived_classification 500 0 0).2.2.2.2.2
    ⟨[⟨0, "s1", "m1", ⟨5⟩, [], .adopted, 10, some 20, 30, some 20, false⟩], [], 1, 0⟩ 0
    ⟨0, "s1", "m1", ⟨5⟩, [], .adopted, 10, some 20, 30, some 20, false⟩
    (by decide) rfl).2.1⟩

/-- Reading back the assigned key yields the assigned value. -/
theorem getVal_setKey_self {V : Type} (m : List (String × V)) (k : String) (v : V) :
    getVal (setKey m k v) k = some v := by
  induction m with
  | nil => simp [setKey, getVal]
  | cons e rest ih =>
    by_cases h : e.1 = k
    · simp [setKey, h, getVal]
    · simp [setKey, h, getVal, ih]

/-- Assigning one key leaves every other key's value unchanged. -/
theorem getVal_setKey_other {V : Type} (m : List (String × V)) (k k2 : String) (v : V)
    (h : k2 ≠ k) : getVal (setKey m k v) k2 = getVal m k2 := by
  induction m with
  | nil => simp [setKey, getVal, Ne.symm h]
  | cons e rest ih =>
    by_cases he : e.1 = k
    · simp [setKey, he, getVal, Ne.symm h]
    · simp only [setKey, if_neg he]
      by_cases hk2 : e.1 = k2
      · simp [getVal, hk2]
      · simp [getVal, hk2, ih]

/-- C9: saveProps modifies only the name, location, url and zoomFactor
fields of the persisted config — those four are set to the payload values
(zoomFactor to parseFloat of its raw value) and every other key present in
config.json keeps its prior value in the rewritten file. -/
theorem c9_saveProps_frame {V : Type} (pf : String → V) (config : List (String × V))
    (props : PropsPayload V) :
    (∀ k, k ∉ (["name", "location", "url", "zoomFactor"] : List String) →
       getVal (saveProps pf config props) k = getVal config k) ∧
    getVal (saveProps pf config props) "name" = some props.name ∧
    getVal (saveProps pf config props) "location" = some props.location ∧
    getVal (saveProps pf config props) "url" = some props.url ∧
    getVal (saveProps pf config props) "zoomFactor" = some (pf props.zoomFactorRaw) := by
  refine ⟨?_, ?_, ?_, ?_, ?_⟩
  · intro k hk
    simp only [List.mem_cons, List.not_mem_nil, or_false, not_or] at hk
    obtain ⟨h1, h2, h3, h4⟩ := hk
    unfold saveProps
    rw [getVal_setKey_other _ _ _ _ h4, getVal_setKey_other _ _ _ _ h3,
        getVal_setKey_other _ _ _ _ h2, getVal_setKey_other _ _ _ _ h1]
  · unfold saveProps
    rw [getVal_setKey_other _ _ _ _ (by decide), getVal_setKey_other _ _ _ _ (by decide),
        getVal_setKey_other _ _ _ _ (by decide), getVal_setKey_self]
  · unfold saveProps
    rw [getVal_setKey_other _ _ _ _ (by decide), getVal_setKey_other _ _ _ _ (by decide),
        getVal_setKey_self]
  · unfold saveProps
    rw [getVal_setKey_other _ _ _ _ (by decide), getVal_setKey_self]
  · unfold saveProps
    rw [getVal_setKey_self]

/-- Witness for C9: the fullscreen key survives a saveProps unchanged. -/
theorem c9_witness :
    getVal (saveProps (fun s => s)
        [("name", "old"), ("fullscreen", "true"), ("frame", "false"),
         ("controller", "https://app.edugo.be/api/v1/devices/register"),
         ("refreshCronExpression", "0 0 * * * *")]
        ⟨"new-name", "lobby", "https://x", "1.6"⟩) "fullscreen"
      = getVal [("name", "old"), ("fullscreen", "true"), ("frame", "false"),
         ("controller", "https://app.edugo.be/api/v1/devices/register"),
         ("refreshCronExpression", "0 0 * * * *")] "fullscreen" :=
  (c9_saveProps_frame (fun s => s)
    [("name", "old"), ("fullscreen", "true"), ("frame", "false"),
     ("controller", "https://app.edugo.be/api/v1/devices/register"),
     ("refreshCronExpression", "0 0 * * * *")]
    ⟨"new-name", "lobby", "https://x", "1.6"⟩).1 "fullscreen" (by decide)

/-- C10: createMainWindow is total over configs with missing display keys:
a missing url loads https://edugo.be, missing fullscreen defaults to true,
missing frame to false and missing zoomFactor to zoom factor 1. -/
theorem c10_createMainWindow_defaults (c : FileConfig) :
    (c.url = none → (createMainWindow c).url = "https://edugo.be") ∧
    (c.fullscreen = none → (createMainWindow c).fullscreen = true) ∧
    (c.frame = none → (createMainWindow c).frame = false) ∧
    (c.zoomFactor = none → (createMainWindow c).zoomFactor = 1) := by
  refine ⟨?_, ?_, ?_, ?_⟩ <;> intro h <;> simp [createMainWindow, h]

/-- Witness for C10 at the config with all four keys missing. -/
theorem c10_witness :
    (createMainWindow ⟨none, none, none, none⟩).url = "https://edugo.be" ∧
    (createMainWindow ⟨none, none, none, none⟩).fullscreen = true ∧
    (createMainWindow ⟨none, none, none, none⟩).frame = false ∧
    (createMainWindow ⟨none, none, none, none⟩).zoomFactor = 1 :=
  ⟨(c10_createMainWindow_defaults ⟨none, none, none, none⟩).1 rfl,
   (c10_createMainWindow_defaults ⟨none, none, none, none⟩).2.1 rfl,
   (c10_createMainWindow_defaults ⟨none, none, none, none⟩).2.2.1 rfl,
   (c10_createMainWindow_defaults ⟨none, none, none, none⟩).2.2.2 rfl⟩

end Infodisplay

